import Mathlib

/-!
Verification of the etcd-backed monitor service
(`backend/monitor/monitors.go` of sensu-go).

The Go code is shallowly embedded: every store RPC the service issues is
recorded in an explicit `StoreOp` trace, and the responses the etcd client
would deliver are supplied up front by a `ClientModel` environment.  The
watcher goroutine of `watchMon` is modelled as a pure function consuming
the list of watch responses the channel delivers before it closes.
-/

/-- Errors surfaced by the modelled Go code: an arbitrary store RPC error
(network, unavailability, ...) or the error of `strconv.ParseInt` on a
malformed stored value. -/
inductive GoError : Type where
  | rpcErr (msg : String)
  | parseIntErr (input : String)
deriving DecidableEq, Repr

/-! ### Model of `strconv.ParseInt(s, 10, 64)` and `fmt.Sprintf("%d", x)` -/

/-- The ASCII digit character for `n < 10` (Go writes decimal digits). -/
def digitChar (n : Nat) : Char := Char.ofNat (48 + n)

/-- The numeric value of an ASCII decimal digit, `none` on any other char. -/
def digitVal (c : Char) : Option Nat :=
  if 48 ≤ c.toNat ∧ c.toNat ≤ 57 then some (c.toNat - 48) else none

/-- Left-to-right accumulation of decimal digits, failing on a non-digit,
as Go's `strconv.ParseUint` core loop does in base 10. -/
def parseNatFrom : List Char → Nat → Option Nat
  | [], acc => some acc
  | c :: rest, acc =>
    match digitVal c with
    | some d => parseNatFrom rest (10 * acc + d)
    | none => none

/-- Digits of a (sign-stripped) Go integer literal: at least one digit is
required, every character must be a digit. -/
def parseDigits (cs : List Char) : Option Nat :=
  match cs with
  | [] => none
  | _ => parseNatFrom cs 0

/-- Model of Go `strconv.ParseInt(s, 10, 64)`: optional single `+`/`-`
sign, then one or more decimal digits, value within the int64 range
(`-2^63 ≤ n ≤ 2^63 - 1`); `none` models a non-nil error. -/
def go_parseInt64 (s : String) : Option Int :=
  match s.data with
  | [] => none
  | c :: rest =>
    if c = '-' then
      match parseDigits rest with
      | none => none
      | some n => if n ≤ 2 ^ 63 then some (-(n : Int)) else none
    else if c = '+' then
      match parseDigits rest with
      | none => none
      | some n => if n ≤ 2 ^ 63 - 1 then some (n : Int) else none
    else
      match parseDigits (c :: rest) with
      | none => none
      | some n => if n ≤ 2 ^ 63 - 1 then some (n : Int) else none

/-- Decimal digit list of a natural number, with structural fuel so that it
reduces by evaluation; `fuel > n` suffices. -/
def natToDigitsAux : Nat → Nat → List Char
  | 0, _ => []
  | fuel + 1, n =>
    if n < 10 then [digitChar n]
    else natToDigitsAux fuel (n / 10) ++ [digitChar (n % 10)]

/-- Decimal digit list of a natural number: `natToDigits 30 = ['3','0']`. -/
def natToDigits (n : Nat) : List Char := natToDigitsAux (n + 1) n

/-- Model of Go `fmt.Sprintf("%d", i)` for an `int64` value: minus sign for
negative values followed by the decimal digits of the magnitude. -/
def go_formatInt (i : Int) : String :=
  if i < 0 then String.mk ('-' :: natToDigits i.natAbs)
  else String.mk (natToDigits i.natAbs)

/-! ### Data model -/

/-- One key-value pair of an etcd range response (`mvccpb.KeyValue`):
key bytes, value bytes, and the lease bound to the key. -/
structure KeyValue : Type where
  key : String
  value : String
  lease : Int
deriving DecidableEq, Repr

/-- The `monitor` struct of `monitors.go`: a key, the identifier of the
lease bound to it, and the ttl in seconds. -/
structure monitor : Type where
  key : String
  leaseID : Int
  ttl : Int
deriving DecidableEq, Repr

/-- The responses the etcd client delivers to the single `Get`, `Grant`,
`Put` and `KeepAliveOnce` call a `RefreshMonitor` invocation can make.
`Except.error` models a non-nil Go error from the RPC. -/
structure ClientModel : Type where
  getResp : Except GoError (List KeyValue)
  grantResp : Except GoError Int
  putResp : Except GoError Unit
  keepAliveResp : Except GoError Unit

/-- The store operations the service can issue, each recording the context
(cancellation token, as an opaque id) it was issued under.  `revoke` and
`del` are available on the etcd client but, as proved below, never issued
by `RefreshMonitor`.  `watch` records the start of the watcher goroutine
for a key together with the entity/event snapshot its failure callback
captured. -/
inductive StoreOp : Type where
  | get (ctx : Nat) (key : String)
  | grant (ctx : Nat) (ttl : Int)
  | put (ctx : Nat) (key : String) (value : String) (leaseID : Int)
  | keepAliveOnce (ctx : Nat) (leaseID : Int)
  | revoke (ctx : Nat) (leaseID : Int)
  | del (ctx : Nat) (key : String)
  | watch (ctx : Nat) (key : String) (entity : String) (event : String)
deriving DecidableEq, Repr

/-! ### Key naming -/

/-- The fixed namespace of monitor keys (`monitorPathPrefix` in the
source). -/
def monitorPathRoot : String := "monitors"

/-- Modelled from the spec: `store.NewKeyBuilder`/`KeyBuilder.Build` are
not part of the sources under verification; §6 of the spec fixes the
mapping as `<fixed-namespace>/<name>`, opaque string concatenation, with
`monitors/entity1` as worked example. -/
def keyBuilderBuild (root name : String) : String := root ++ "/" ++ name

/-- `monitorKeyBuilder.Build name` of the source. -/
def monitorKeyBuilderBuild (name : String) : String :=
  keyBuilderBuild monitorPathRoot name

/-! ### The monitor service -/

/-- `EtcdService.getMonitor`: issue a `Get` for the key; absent key is
`none` without error; otherwise parse the stored value as the ttl,
surfacing a parse failure as an error; the lease id comes from the stored
key-value pair. -/
def getMonitor (cl : ClientModel) (ctx : Nat) (key : String) :
    Except GoError (Option monitor) × List StoreOp :=
  match cl.getResp with
  | .error e => (.error e, [.get ctx key])
  | .ok kvs =>
    match kvs with
    | [] => (.ok none, [.get ctx key])
    | kv :: _ =>
      match go_parseInt64 kv.value with
      | none => (.error (.parseIntErr kv.value), [.get ctx key])
      | some t =>
        (.ok (some { key := kv.key, leaseID := kv.lease, ttl := t }),
         [.get ctx key])

/-- The create path of `RefreshMonitor` (source lines 78-109): grant a new
lease for `ttl` seconds, put the key with the decimal string of `ttl`
bound to the new lease, then start the watcher goroutine; any RPC error is
returned as-is and stops the sequence. -/
def refreshCreate (cl : ClientModel) (ctx : Nat) (key : String)
    (entity event : String) (ttl : Int) : Except GoError Unit × List StoreOp :=
  match cl.grantResp with
  | .error e => (.error e, [.grant ctx ttl])
  | .ok leaseID =>
    match cl.putResp with
    | .error e =>
      (.error e, [.grant ctx ttl, .put ctx key (go_formatInt ttl) leaseID])
    | .ok _ =>
      (.ok (),
       [.grant ctx ttl, .put ctx key (go_formatInt ttl) leaseID,
        .watch ctx key entity event])

/-- `EtcdService.RefreshMonitor`: build the key, read the monitor; on a
read error return it; if a monitor exists with the requested ttl, a single
`KeepAliveOnce` on the stored lease and return its result; otherwise the
create path. -/
def RefreshMonitor (cl : ClientModel) (ctx : Nat) (name : String)
    (entity event : String) (ttl : Int) : Except GoError Unit × List StoreOp :=
  let key := monitorKeyBuilderBuild name
  let g := getMonitor cl ctx key
  match g.1 with
  | .error e => (.error e, g.2)
  | .ok (some mon) =>
    if mon.ttl = ttl then
      match cl.keepAliveResp with
      | .error e => (.error e, g.2 ++ [.keepAliveOnce ctx mon.leaseID])
      | .ok _ => (.ok (), g.2 ++ [.keepAliveOnce ctx mon.leaseID])
    else
      let c := refreshCreate cl ctx key entity event ttl
      (c.1, g.2 ++ c.2)
  | .ok none =>
    let c := refreshCreate cl ctx key entity event ttl
    (c.1, g.2 ++ c.2)

/-! ### The callbacks and the watcher goroutine -/

/-- Invocations of the externally supplied policy handlers. -/
inductive HandlerCall : Type where
  | handleFailure (entity : String) (event : String)
  | handleError (e : GoError)
deriving DecidableEq, Repr

/-- The `failureFunc` closure of `RefreshMonitor`: call the failure
handler with the captured entity/event snapshot; if and only if it returns
an error, pass exactly that error to the error handler.  The returned list
records the handler invocations in order; the closure itself returns
nothing and lets no error escape. -/
def failureFunc (failureHandler : String → String → Option GoError)
    (entity event : String) : List HandlerCall :=
  match failureHandler entity event with
  | some err => [.handleFailure entity event, .handleError err]
  | none => [.handleFailure entity event]

/-- `mvccpb` event types delivered on a watch channel. -/
inductive WatchEventType : Type where
  | PUT
  | DELETE
deriving DecidableEq, Repr

/-- One event of a watch response. -/
structure WatchEvent : Type where
  ty : WatchEventType
deriving DecidableEq, Repr

/-- One message on the watch channel: a batch of events. -/
structure WatchResponse : Type where
  events : List WatchEvent
deriving DecidableEq, Repr

/-- The inner loop of the `watchMon` goroutine over one response's events:
on a DELETE the failure callback fires and the goroutine returns; on a PUT
the shutdown callback fires and the goroutine returns. -/
def scanEvents {α : Type} (failureCb shutdownCb : α) :
    List WatchEvent → Option α
  | [] => none
  | ev :: rest =>
    if ev.ty = .DELETE then some failureCb
    else if ev.ty = .PUT then some shutdownCb
    else scanEvents failureCb shutdownCb rest

/-- The `watchMon` goroutine: consume watch responses in order until a
terminal event fires a callback (recorded in the output list) and the
goroutine returns; if the channel closes first (its context canceled), the
loop ends with no callback invoked. -/
def watchMon {α : Type} (failureCb shutdownCb : α) :
    List WatchResponse → List α
  | [] => []
  | w :: rest =>
    match scanEvents failureCb shutdownCb w.events with
    | some cb => [cb]
    | none => watchMon failureCb shutdownCb rest
/-! ### Concrete client environments used for evaluation -/

/-- A client over an empty store whose grant/put/keep-alive succeed; the
granted lease has id 5. -/
def clOk : ClientModel :=
  { getResp := .ok [], grantResp := .ok 5, putResp := .ok (),
    keepAliveResp := .ok () }

/-- A client whose store holds `monitors/entity1` with value `"30"` bound
to lease 9, as a prior `RefreshMonitor` call would have written it. -/
def clHeld : ClientModel :=
  { getResp := .ok [{ key := "monitors/entity1", value := "30", lease := 9 }],
    grantResp := .ok 5, putResp := .ok (), keepAliveResp := .ok () }

/-- A client whose `Get` RPC fails. -/
def clGetErr : ClientModel :=
  { getResp := .error (.rpcErr "get unavailable"), grantResp := .ok 5,
    putResp := .ok (), keepAliveResp := .ok () }

/-- A client whose stored value is not parseable as an integer. -/
def clBadVal : ClientModel :=
  { getResp := .ok [{ key := "monitors/entity1", value := "bogus", lease := 9 }],
    grantResp := .ok 5, putResp := .ok (), keepAliveResp := .ok () }

/-- A client over an empty store whose `Grant` RPC fails. -/
def clGrantErr : ClientModel :=
  { getResp := .ok [], grantResp := .error (.rpcErr "grant unavailable"),
    putResp := .ok (), keepAliveResp := .ok () }

/-- A client over an empty store whose `Put` RPC fails after a successful
grant of lease 5. -/
def clPutErr : ClientModel :=
  { getResp := .ok [], grantResp := .ok 5,
    putResp := .error (.rpcErr "put unavailable"), keepAliveResp := .ok () }

/-- A client holding `monitors/entity1 = "30"` whose `KeepAliveOnce` RPC
fails. -/
def clKaErr : ClientModel :=
  { getResp := .ok [{ key := "monitors/entity1", value := "30", lease := 9 }],
    grantResp := .ok 5, putResp := .ok (),
    keepAliveResp := .error (.rpcErr "keepalive unavailable") }

/-! ### Round-trip of the ttl encoding -/

theorem digitVal_digitChar (n : Nat) (h : n < 10) :
    digitVal (digitChar n) = some n := by
  interval_cases n <;> decide

theorem digitChar_not_sign (n : Nat) (h : n < 10) :
    digitChar n ≠ '-' ∧ digitChar n ≠ '+' := by
  interval_cases n <;> decide

theorem parseNatFrom_append (xs ys : List Char) (acc : Nat) :
    parseNatFrom (xs ++ ys) acc =
      (parseNatFrom xs acc).bind fun a => parseNatFrom ys a := by
  induction xs generalizing acc with
  | nil => simp [parseNatFrom]
  | cons c rest ih =>
    simp only [List.cons_append, parseNatFrom]
    cases digitVal c with
    | none => simp
    | some d => simp [ih]

theorem natToDigitsAux_shape (fuel n : Nat) (h : n < fuel) :
    ∃ d l, natToDigitsAux fuel n = digitChar d :: l ∧ d < 10 := by
  induction fuel generalizing n with
  | zero => omega
  | succ fuel ih =>
    by_cases h10 : n < 10
    · exact ⟨n, [], by simp [natToDigitsAux, h10], h10⟩
    · have hdiv : n / 10 < fuel := by
        have h1 : n / 10 < n := Nat.div_lt_self (by omega) (by omega)
        omega
      obtain ⟨d, l, hl, hd⟩ := ih (n / 10) hdiv
      exact ⟨d, l ++ [digitChar (n % 10)], by simp [natToDigitsAux, h10, hl], hd⟩

theorem parseNatFrom_natToDigitsAux (fuel : Nat) :
    ∀ n acc, n < fuel →
      parseNatFrom (natToDigitsAux fuel n) acc =
        some (acc * 10 ^ (natToDigitsAux fuel n).length + n) := by
  induction fuel with
  | zero => omega
  | succ fuel ih =>
    intro n acc h
    by_cases h10 : n < 10
    · simp [natToDigitsAux, h10, parseNatFrom, digitVal_digitChar n h10]
      omega
    · have hdiv : n / 10 < fuel := by
        have h1 : n / 10 < n := Nat.div_lt_self (by omega) (by omega)
        omega
      have hmod : n % 10 < 10 := Nat.mod_lt _ (by omega)
      simp only [natToDigitsAux, if_neg h10, parseNatFrom_append,
        ih (n / 10) acc hdiv, Option.bind_some, parseNatFrom,
        digitVal_digitChar (n % 10) hmod, List.length_append,
        List.length_cons, List.length_nil, Option.some.injEq]
      have hdm := Nat.div_add_mod n 10
      rw [pow_succ, ← mul_assoc]
      generalize acc * 10 ^ (natToDigitsAux fuel (n / 10)).length = M
      simp only [Option.some_bind, Option.some.injEq]
      omega

theorem parseNatFrom_natToDigits (n : Nat) :
    parseNatFrom (natToDigits n) 0 = some n := by
  have := parseNatFrom_natToDigitsAux (n + 1) n 0 (by omega)
  simpa [natToDigits] using this

theorem natToDigits_shape (n : Nat) :
    ∃ d l, natToDigits n = digitChar d :: l ∧ d < 10 :=
  natToDigitsAux_shape (n + 1) n (by omega)

theorem parseDigits_natToDigits (n : Nat) :
    parseDigits (natToDigits n) = some n := by
  obtain ⟨d, l, hl, -⟩ := natToDigits_shape n
  rw [hl]
  simp only [parseDigits]
  rw [← hl]
  exact parseNatFrom_natToDigits n

theorem go_parseInt64_neg_data (rest : List Char) :
    go_parseInt64 (String.mk ('-' :: rest)) =
      match parseDigits rest with
      | none => none
      | some n => if n ≤ 2 ^ 63 then some (-(n : Int)) else none := by
  simp [go_parseInt64]

theorem go_parseInt64_digit_data (c : Char) (rest : List Char)
    (hm : c ≠ '-') (hp : c ≠ '+') :
    go_parseInt64 (String.mk (c :: rest)) =
      match parseDigits (c :: rest) with
      | none => none
      | some n => if n ≤ 2 ^ 63 - 1 then some (n : Int) else none := by
  simp [go_parseInt64, hm, hp]

theorem go_parse_go_format (i : Int) (h1 : -(2 ^ 63) ≤ i) (h2 : i < 2 ^ 63) :
    go_parseInt64 (go_formatInt i) = some i := by
  obtain ⟨d, l, hl, hd⟩ := natToDigits_shape i.natAbs
  obtain ⟨hm, hp⟩ := digitChar_not_sign d hd
  by_cases hneg : i < 0
  · have hfmt : go_formatInt i = String.mk ('-' :: natToDigits i.natAbs) := by
      simp [go_formatInt, hneg]
    rw [hfmt, go_parseInt64_neg_data, parseDigits_natToDigits]
    have hrange : i.natAbs ≤ 2 ^ 63 := by omega
    simp only [if_pos hrange, Option.some.injEq]
    omega
  · have hfmt : go_formatInt i = String.mk (digitChar d :: l) := by
      simp [go_formatInt, hneg, hl]
    rw [hfmt, go_parseInt64_digit_data _ _ hm hp, ← hl, parseDigits_natToDigits]
    have hrange : i.natAbs ≤ 2 ^ 63 - 1 := by omega
    simp only [if_pos hrange, Option.some.injEq]
    omega

/-! ### Behavior of the watcher goroutine -/

theorem watchMon_characterization {α : Type} (f s : α) (rs : List WatchResponse) :
    watchMon f s rs =
      match (rs.flatMap WatchResponse.events) with
      | [] => []
      | ev :: _ => [if ev.ty = .DELETE then f else s] := by
  induction rs with
  | nil => simp [watchMon]
  | cons w rest ih =>
    cases hw : w.events with
    | nil => simpa [watchMon, scanEvents, hw] using ih
    | cons ev evs =>
      cases hty : ev.ty <;>
        simp [watchMon, scanEvents, hw, hty, List.flatMap_cons]

theorem watchMon_length_le_one {α : Type} (f s : α) (rs : List WatchResponse) :
    (watchMon f s rs).length ≤ 1 := by
  rw [watchMon_characterization]
  cases rs.flatMap WatchResponse.events <;> simp

/-! ### Helper lemmas about the service -/

theorem getMonitor_trace (cl : ClientModel) (ctx : Nat) (key : String) :
    (getMonitor cl ctx key).2 = [.get ctx key] := by
  cases hg : cl.getResp with
  | error e => simp [getMonitor, hg]
  | ok kvs =>
    cases kvs with
    | nil => simp [getMonitor, hg]
    | cons kv rest =>
      cases hp : go_parseInt64 kv.value <;> simp [getMonitor, hg, hp]

theorem refreshMonitor_create_eq (cl : ClientModel) (ctx : Nat)
    (name entity event : String) (ttl : Int)
    (h : (getMonitor cl ctx (monitorKeyBuilderBuild name)).1 = .ok none ∨
         ∃ m, (getMonitor cl ctx (monitorKeyBuilderBuild name)).1 = .ok (some m) ∧
              m.ttl ≠ ttl) :
    RefreshMonitor cl ctx name entity event ttl =
      ((refreshCreate cl ctx (monitorKeyBuilderBuild name) entity event ttl).1,
       .get ctx (monitorKeyBuilderBuild name) ::
         (refreshCreate cl ctx (monitorKeyBuilderBuild name) entity event ttl).2) := by
  rcases h with hnone | ⟨m, hsome, hne⟩
  · simp [RefreshMonitor, hnone, getMonitor_trace]
  · simp [RefreshMonitor, hsome, hne, getMonitor_trace]

theorem refreshMonitor_keepalive_eq (cl : ClientModel) (ctx : Nat)
    (name entity event : String) (ttl : Int) (kv : KeyValue)
    (rest : List KeyValue) (hget : cl.getResp = .ok (kv :: rest))
    (httl : go_parseInt64 kv.value = some ttl) :
    RefreshMonitor cl ctx name entity event ttl =
      (cl.keepAliveResp,
       [.get ctx (monitorKeyBuilderBuild name), .keepAliveOnce ctx kv.lease]) := by
  have hg : getMonitor cl ctx (monitorKeyBuilderBuild name) =
      (.ok (some { key := kv.key, leaseID := kv.lease, ttl := ttl }),
       [.get ctx (monitorKeyBuilderBuild name)]) := by
    simp [getMonitor, hget, httl]
  cases hka : cl.keepAliveResp with
  | error e => simp [RefreshMonitor, hg, hka]
  | ok u => simp [RefreshMonitor, hg, hka]

/-! ### The claims -/

/-- Claim C1: when the store holds a record for the computed key whose
stored ttl equals the requested ttl, `RefreshMonitor` issues exactly one
`KeepAliveOnce` against the stored lease identifier and returns that
call's result, performing no grant, no put, and starting no watcher. -/
theorem refreshMonitor_steady_state (cl : ClientModel) (ctx : Nat)
    (name entity event : String) (ttl : Int) (kv : KeyValue)
    (rest : List KeyValue) (hget : cl.getResp = .ok (kv :: rest))
    (httl : go_parseInt64 kv.value = some ttl) :
    RefreshMonitor cl ctx name entity event ttl =
      (cl.keepAliveResp,
       [.get ctx (monitorKeyBuilderBuild name), .keepAliveOnce ctx kv.lease]) :=
  refreshMonitor_keepalive_eq cl ctx name entity event ttl kv rest hget httl

/-- Witness for C1: on a store holding `monitors/entity1 = "30"` under
lease 9, refreshing with ttl 30 keep-alives lease 9 and succeeds. -/
theorem refreshMonitor_steady_state_witness :
    RefreshMonitor clHeld 1 "entity1" "e" "ev" 30 =
      (.ok (), [.get 1 "monitors/entity1", .keepAliveOnce 1 9]) := by
  have h := refreshMonitor_steady_state clHeld 1 "entity1" "e" "ev" 30
    { key := "monitors/entity1", value := "30", lease := 9 } [] rfl (by decide)
  simpa using h

/-- Claim C2: when the store holds no record for the key (the read returns
absent without error) or a record whose stored ttl differs from the
requested one, `RefreshMonitor` grants a new lease for ttl seconds, writes
the key with the decimal string of ttl bound to the new lease, starts a
watcher for the key, and returns success once the put completes. -/
theorem refreshMonitor_create (cl : ClientModel) (ctx : Nat)
    (name entity event : String) (ttl : Int) (lid : Int)
    (hgrant : cl.grantResp = .ok lid) (hput : cl.putResp = .ok ()) :
    (cl.getResp = .ok [] →
      getMonitor cl ctx (monitorKeyBuilderBuild name) =
        (.ok none, [.get ctx (monitorKeyBuilderBuild name)]) ∧
      RefreshMonitor cl ctx name entity event ttl =
        (.ok (),
         [.get ctx (monitorKeyBuilderBuild name), .grant ctx ttl,
          .put ctx (monitorKeyBuilderBuild name) (go_formatInt ttl) lid,
          .watch ctx (monitorKeyBuilderBuild name) entity event])) ∧
    (∀ kv rest t, cl.getResp = .ok (kv :: rest) →
      go_parseInt64 kv.value = some t → t ≠ ttl →
      RefreshMonitor cl ctx name entity event ttl =
        (.ok (),
         [.get ctx (monitorKeyBuilderBuild name), .grant ctx ttl,
          .put ctx (monitorKeyBuilderBuild name) (go_formatInt ttl) lid,
          .watch ctx (monitorKeyBuilderBuild name) entity event])) := by
  have hc : refreshCreate cl ctx (monitorKeyBuilderBuild name) entity event ttl =
      (.ok (),
       [.grant ctx ttl, .put ctx (monitorKeyBuilderBuild name) (go_formatInt ttl) lid,
        .watch ctx (monitorKeyBuilderBuild name) entity event]) := by
    simp [refreshCreate, hgrant, hput]
  constructor
  · intro h0
    have hg : getMonitor cl ctx (monitorKeyBuilderBuild name) =
        (.ok none, [.get ctx (monitorKeyBuilderBuild name)]) := by
      simp [getMonitor, h0]
    refine ⟨hg, ?_⟩
    rw [refreshMonitor_create_eq cl ctx name entity event ttl (Or.inl (by rw [hg]))]
    simp [hc]
  · intro kv rest t hget hparse hne
    have hg : getMonitor cl ctx (monitorKeyBuilderBuild name) =
        (.ok (some { key := kv.key, leaseID := kv.lease, ttl := t }),
         [.get ctx (monitorKeyBuilderBuild name)]) := by
      simp [getMonitor, hget, hparse]
    rw [refreshMonitor_create_eq cl ctx name entity event ttl
      (Or.inr ⟨_, by rw [hg], hne⟩)]
    simp [hc]

/-- Witness for C2: on an empty store, refreshing `entity1` with ttl 30
grants a lease, puts `monitors/entity1 = "30"` under it, and starts the
watcher; refreshing with ttl 60 against a stored ttl of 30 does the same
with value `"60"`. -/
theorem refreshMonitor_create_witness :
    RefreshMonitor clOk 1 "entity1" "e" "ev" 30 =
      (.ok (), [.get 1 "monitors/entity1", .grant 1 30,
                .put 1 "monitors/entity1" "30" 5,
                .watch 1 "monitors/entity1" "e" "ev"]) ∧
    RefreshMonitor clHeld 1 "entity1" "e" "ev" 60 =
      (.ok (), [.get 1 "monitors/entity1", .grant 1 60,
                .put 1 "monitors/entity1" "60" 5,
                .watch 1 "monitors/entity1" "e" "ev"]) := by
  constructor
  · have h := (refreshMonitor_create clOk 1 "entity1" "e" "ev" 30 5 rfl rfl).1 rfl
    have h30 : go_formatInt 30 = "30" := by decide
    simpa [h30] using h.2
  · have h := (refreshMonitor_create clHeld 1 "entity1" "e" "ev" 60 5 rfl rfl).2
      { key := "monitors/entity1", value := "30", lease := 9 } [] 30 rfl
      (by decide) (by decide)
    have h60 : go_formatInt 60 = "60" := by decide
    simpa [h60] using h

/-- Claim C4: every store RPC failure (get, grant, put, keep-alive) is
returned to the caller unmodified, and a stored value not parseable as an
integer makes the read step return an error aborting the refresh; in each
error case no later store operation runs and no watcher is started. -/
theorem refreshMonitor_error_propagation (cl : ClientModel) (ctx : Nat)
    (name entity event : String) (ttl : Int) :
    (∀ e, cl.getResp = .error e →
      RefreshMonitor cl ctx name entity event ttl =
        (.error e, [.get ctx (monitorKeyBuilderBuild name)])) ∧
    (∀ kv rest, cl.getResp = .ok (kv :: rest) → go_parseInt64 kv.value = none →
      RefreshMonitor cl ctx name entity event ttl =
        (.error (.parseIntErr kv.value), [.get ctx (monitorKeyBuilderBuild name)])) ∧
    (∀ e, ((getMonitor cl ctx (monitorKeyBuilderBuild name)).1 = .ok none ∨
           ∃ m, (getMonitor cl ctx (monitorKeyBuilderBuild name)).1 = .ok (some m) ∧
                m.ttl ≠ ttl) →
      cl.grantResp = .error e →
      RefreshMonitor cl ctx name entity event ttl =
        (.error e, [.get ctx (monitorKeyBuilderBuild name), .grant ctx ttl])) ∧
    (∀ e lid, ((getMonitor cl ctx (monitorKeyBuilderBuild name)).1 = .ok none ∨
           ∃ m, (getMonitor cl ctx (monitorKeyBuilderBuild name)).1 = .ok (some m) ∧
                m.ttl ≠ ttl) →
      cl.grantResp = .ok lid → cl.putResp = .error e →
      RefreshMonitor cl ctx name entity event ttl =
        (.error e, [.get ctx (monitorKeyBuilderBuild name), .grant ctx ttl,
                    .put ctx (monitorKeyBuilderBuild name) (go_formatInt ttl) lid])) ∧
    (∀ e kv rest, cl.getResp = .ok (kv :: rest) →
      go_parseInt64 kv.value = some ttl → cl.keepAliveResp = .error e →
      RefreshMonitor cl ctx name entity event ttl =
        (.error e, [.get ctx (monitorKeyBuilderBuild name),
                    .keepAliveOnce ctx kv.lease])) := by
  refine ⟨?_, ?_, ?_, ?_, ?_⟩
  · intro e hget
    have hg : getMonitor cl ctx (monitorKeyBuilderBuild name) =
        (.error e, [.get ctx (monitorKeyBuilderBuild name)]) := by
      simp [getMonitor, hget]
    simp [RefreshMonitor, hg]
  · intro kv rest hget hparse
    have hg : getMonitor cl ctx (monitorKeyBuilderBuild name) =
        (.error (.parseIntErr kv.value), [.get ctx (monitorKeyBuilderBuild name)]) := by
      simp [getMonitor, hget, hparse]
    simp [RefreshMonitor, hg]
  · intro e h hgrant
    rw [refreshMonitor_create_eq cl ctx name entity event ttl h]
    simp [refreshCreate, hgrant]
  · intro e lid h hgrant hput
    rw [refreshMonitor_create_eq cl ctx name entity event ttl h]
    simp [refreshCreate, hgrant, hput]
  · intro e kv rest hget hparse hka
    have h := refreshMonitor_keepalive_eq cl ctx name entity event ttl kv rest
      hget hparse
    rw [h, hka]

/-- Witness for C4: each of the five error cases evaluated on a concrete
client: a failing get, a malformed stored value, a failing grant, a
failing put, and a failing keep-alive. -/
theorem refreshMonitor_error_propagation_witness :
    RefreshMonitor clGetErr 1 "entity1" "e" "ev" 30 =
      (.error (.rpcErr "get unavailable"), [.get 1 "monitors/entity1"]) ∧
    RefreshMonitor clBadVal 1 "entity1" "e" "ev" 30 =
      (.error (.parseIntErr "bogus"), [.get 1 "monitors/entity1"]) ∧
    RefreshMonitor clGrantErr 1 "entity1" "e" "ev" 30 =
      (.error (.rpcErr "grant unavailable"),
       [.get 1 "monitors/entity1", .grant 1 30]) ∧
    RefreshMonitor clPutErr 1 "entity1" "e" "ev" 30 =
      (.error (.rpcErr "put unavailable"),
       [.get 1 "monitors/entity1", .grant 1 30,
        .put 1 "monitors/entity1" "30" 5]) ∧
    RefreshMonitor clKaErr 1 "entity1" "e" "ev" 30 =
      (.error (.rpcErr "keepalive unavailable"),
       [.get 1 "monitors/entity1", .keepAliveOnce 1 9]) := by
  refine ⟨?_, ?_, ?_, ?_, ?_⟩
  · exact (refreshMonitor_error_propagation clGetErr 1 "entity1" "e" "ev" 30).1
      (.rpcErr "get unavailable") rfl
  · have h := (refreshMonitor_error_propagation clBadVal 1 "entity1" "e" "ev" 30).2.1
      { key := "monitors/entity1", value := "bogus", lease := 9 } [] rfl (by decide)
    simpa using h
  · exact (refreshMonitor_error_propagation clGrantErr 1 "entity1" "e" "ev" 30).2.2.1
      (.rpcErr "grant unavailable") (Or.inl rfl) rfl
  · have h := (refreshMonitor_error_propagation clPutErr 1 "entity1" "e" "ev" 30).2.2.2.1
      (.rpcErr "put unavailable") 5 (Or.inl rfl) rfl rfl
    have h30 : go_formatInt 30 = "30" := by decide
    simpa [h30] using h
  · have h := (refreshMonitor_error_propagation clKaErr 1 "entity1" "e" "ev" 30).2.2.2.2
      (.rpcErr "keepalive unavailable")
      { key := "monitors/entity1", value := "30", lease := 9 } [] rfl (by decide) rfl
    simpa using h

theorem refreshMonitor_trace_cases (cl : ClientModel) (ctx : Nat)
    (name entity event : String) (ttl : Int) :
    (RefreshMonitor cl ctx name entity event ttl).2 =
        [.get ctx (monitorKeyBuilderBuild name)] ∨
    (∃ l, (RefreshMonitor cl ctx name entity event ttl).2 =
        [.get ctx (monitorKeyBuilderBuild name), .keepAliveOnce ctx l]) ∨
    (RefreshMonitor cl ctx name entity event ttl).2 =
        [.get ctx (monitorKeyBuilderBuild name), .grant ctx ttl] ∨
    (∃ l, (RefreshMonitor cl ctx name entity event ttl).2 =
        [.get ctx (monitorKeyBuilderBuild name), .grant ctx ttl,
         .put ctx (monitorKeyBuilderBuild name) (go_formatInt ttl) l]) ∨
    (∃ l, (RefreshMonitor cl ctx name entity event ttl).2 =
        [.get ctx (monitorKeyBuilderBuild name), .grant ctx ttl,
         .put ctx (monitorKeyBuilderBuild name) (go_formatInt ttl) l,
         .watch ctx (monitorKeyBuilderBuild name) entity event]) := by
  cases hget : cl.getResp with
  | error e =>
    left
    have hg : getMonitor cl ctx (monitorKeyBuilderBuild name) =
        (.error e, [.get ctx (monitorKeyBuilderBuild name)]) := by
      simp [getMonitor, hget]
    simp [RefreshMonitor, hg]
  | ok kvs =>
    cases kvs with
    | nil =>
      have hcre := refreshMonitor_create_eq cl ctx name entity event ttl
        (Or.inl (by simp [getMonitor, hget]))
      cases hgr : cl.grantResp with
      | error e =>
        right; right; left
        rw [hcre]
        simp [refreshCreate, hgr]
      | ok lid =>
        cases hp : cl.putResp with
        | error e =>
          right; right; right; left
          exact ⟨lid, by rw [hcre]; simp [refreshCreate, hgr, hp]⟩
        | ok u =>
          right; right; right; right
          exact ⟨lid, by rw [hcre]; simp [refreshCreate, hgr, hp]⟩
    | cons kv rest =>
      cases hpv : go_parseInt64 kv.value with
      | none =>
        left
        have hg : getMonitor cl ctx (monitorKeyBuilderBuild name) =
            (.error (.parseIntErr kv.value),
             [.get ctx (monitorKeyBuilderBuild name)]) := by
          simp [getMonitor, hget, hpv]
        simp [RefreshMonitor, hg]
      | some t =>
        by_cases ht : t = ttl
        · subst ht
          right; left
          exact ⟨kv.lease, by
            rw [refreshMonitor_keepalive_eq cl ctx name entity event t kv rest
              hget hpv]⟩
        · have hcre := refreshMonitor_create_eq cl ctx name entity event ttl
            (Or.inr ⟨{ key := kv.key, leaseID := kv.lease, ttl := t },
              by simp [getMonitor, hget, hpv], ht⟩)
          cases hgr : cl.grantResp with
          | error e =>
            right; right; left
            rw [hcre]
            simp [refreshCreate, hgr]
          | ok lid =>
            cases hp : cl.putResp with
            | error e =>
              right; right; right; left
              exact ⟨lid, by rw [hcre]; simp [refreshCreate, hgr, hp]⟩
            | ok u =>
              right; right; right; right
              exact ⟨lid, by rw [hcre]; simp [refreshCreate, hgr, hp]⟩

/-- Claim C9: `RefreshMonitor` issues no lease-revoke and no delete on any
code path; in particular, when the put after a grant fails, the call
returns the put's error leaving the fresh lease un-revoked and starting no
watcher. -/
theorem refreshMonitor_no_revoke (cl : ClientModel) (ctx : Nat)
    (name entity event : String) (ttl : Int) :
    (∀ c l, StoreOp.revoke c l ∉ (RefreshMonitor cl ctx name entity event ttl).2) ∧
    (∀ c k, StoreOp.del c k ∉ (RefreshMonitor cl ctx name entity event ttl).2) ∧
    (∀ e lid,
      ((getMonitor cl ctx (monitorKeyBuilderBuild name)).1 = .ok none ∨
        ∃ m, (getMonitor cl ctx (monitorKeyBuilderBuild name)).1 = .ok (some m) ∧
             m.ttl ≠ ttl) →
      cl.grantResp = .ok lid → cl.putResp = .error e →
      RefreshMonitor cl ctx name entity event ttl =
        (.error e, [.get ctx (monitorKeyBuilderBuild name), .grant ctx ttl,
                    .put ctx (monitorKeyBuilderBuild name) (go_formatInt ttl) lid])) := by
  refine ⟨?_, ?_, ?_⟩
  · intro c l
    obtain h | ⟨l', h⟩ | h | ⟨l', h⟩ | ⟨l', h⟩ :=
      refreshMonitor_trace_cases cl ctx name entity event ttl <;> rw [h] <;> simp
  · intro c k
    obtain h | ⟨l', h⟩ | h | ⟨l', h⟩ | ⟨l', h⟩ :=
      refreshMonitor_trace_cases cl ctx name entity event ttl <;> rw [h] <;> simp
  · intro e lid h hgrant hput
    rw [refreshMonitor_create_eq cl ctx name entity event ttl h]
    simp [refreshCreate, hgrant, hput]

/-- Witness for C9: on a concrete client whose put fails after granting
lease 5, the call returns the put error with no revoke or delete issued. -/
theorem refreshMonitor_no_revoke_witness :
    StoreOp.revoke 1 5 ∉ (RefreshMonitor clPutErr 1 "entity1" "e" "ev" 30).2 ∧
    StoreOp.del 1 "monitors/entity1" ∉
      (RefreshMonitor clPutErr 1 "entity1" "e" "ev" 30).2 ∧
    RefreshMonitor clPutErr 1 "entity1" "e" "ev" 30 =
      (.error (.rpcErr "put unavailable"),
       [.get 1 "monitors/entity1", .grant 1 30,
        .put 1 "monitors/entity1" "30" 5]) := by
  refine ⟨(refreshMonitor_no_revoke clPutErr 1 "entity1" "e" "ev" 30).1 1 5,
    (refreshMonitor_no_revoke clPutErr 1 "entity1" "e" "ev" 30).2.1 1 "monitors/entity1",
    ?_⟩
  have h := (refreshMonitor_no_revoke clPutErr 1 "entity1" "e" "ev" 30).2.2
    (.rpcErr "put unavailable") 5 (Or.inl rfl) rfl rfl
  have h30 : go_formatInt 30 = "30" := by decide
  simpa [h30] using h

/-- Claim C10: `RefreshMonitor` validates nothing: for every name,
including the empty string, and every ttl, including zero and negative
values, it proceeds with the normal algorithm, passing the ttl unchanged
to the lease grant and comparing it verbatim against the stored value;
behavior is determined solely by the store contents. -/
theorem refreshMonitor_no_validation (cl : ClientModel) (ctx : Nat)
    (name entity event : String) (ttl : Int) (lid : Int) :
    (cl.getResp = .ok [] → cl.grantResp = .ok lid → cl.putResp = .ok () →
      RefreshMonitor cl ctx name entity event ttl =
        (.ok (),
         [.get ctx (monitorKeyBuilderBuild name), .grant ctx ttl,
          .put ctx (monitorKeyBuilderBuild name) (go_formatInt ttl) lid,
          .watch ctx (monitorKeyBuilderBuild name) entity event])) ∧
    (∀ kv rest, cl.getResp = .ok (kv :: rest) →
      go_parseInt64 kv.value = some ttl →
      RefreshMonitor cl ctx name entity event ttl =
        (cl.keepAliveResp,
         [.get ctx (monitorKeyBuilderBuild name), .keepAliveOnce ctx kv.lease])) := by
  constructor
  · intro hget hgrant hput
    rw [refreshMonitor_create_eq cl ctx name entity event ttl
      (Or.inl (by simp [getMonitor, hget]))]
    simp [refreshCreate, hgrant, hput]
  · intro kv rest hget hparse
    exact refreshMonitor_keepalive_eq cl ctx name entity event ttl kv rest hget hparse

/-- Witness for C10: a call with empty name and negative ttl proceeds
normally: key `monitors/`, grant of -5, value `"-5"`. -/
theorem refreshMonitor_no_validation_witness :
    RefreshMonitor clOk 3 "" "e" "ev" (-5) =
      (.ok (), [.get 3 "monitors/", .grant 3 (-5),
                .put 3 "monitors/" "-5" 5, .watch 3 "monitors/" "e" "ev"]) := by
  have h := (refreshMonitor_no_validation clOk 3 "" "e" "ev" (-5) 5).1 rfl rfl rfl
  have hm5 : go_formatInt (-5) = "-5" := by decide
  simpa [hm5] using h

/-- Claim C3: a watcher task fires at most one callback and terminates on
the first terminal event: a DELETE as first delivered event fires the
failure callback exactly once, later events being unobserved; a PUT as
first delivered event fires the shutdown callback, not the failure one. -/
theorem watchMon_state_machine {α : Type} (fcb scb : α) :
    (∀ rs, watchMon fcb scb rs = [] ∨ watchMon fcb scb rs = [fcb] ∨
           watchMon fcb scb rs = [scb]) ∧
    (∀ rs ev l, rs.flatMap WatchResponse.events = ev :: l →
      watchMon fcb scb rs = [if ev.ty = .DELETE then fcb else scb]) ∧
    (∀ evs rest,
      watchMon fcb scb ({ events := { ty := .DELETE } :: evs } :: rest) = [fcb]) ∧
    (∀ evs rest,
      watchMon fcb scb ({ events := { ty := .PUT } :: evs } :: rest) = [scb]) := by
  refine ⟨?_, ?_, ?_, ?_⟩
  · intro rs
    rw [watchMon_characterization]
    cases h : rs.flatMap WatchResponse.events with
    | nil => simp
    | cons ev l => by_cases hd : ev.ty = .DELETE <;> simp [hd]
  · intro rs ev l h
    rw [watchMon_characterization, h]
  · intro evs rest
    simp [watchMon, scanEvents]
  · intro evs rest
    simp [watchMon, scanEvents]

/-- Witness for C3: with distinguishable callbacks, a DELETE-first stream
fires only the failure callback even with a PUT queued behind it, a
PUT-first stream fires only the shutdown callback even with a DELETE
queued behind it. -/
theorem watchMon_state_machine_witness :
    watchMon true false
      [{ events := [{ ty := .DELETE }, { ty := .PUT }] }] = [true] ∧
    watchMon true false
      [{ events := [{ ty := .PUT }, { ty := .DELETE }] }] = [false] :=
  ⟨(watchMon_state_machine true false).2.2.1 [{ ty := .PUT }] [],
   (watchMon_state_machine true false).2.2.2 [{ ty := .DELETE }] []⟩

/-- Claim C5: the failure callback calls the failure handler with the
captured snapshot first; a handler error is passed to the error handler
exactly once and exactly as returned; a nil handler result invokes no
error handler; in both cases the callback returns normally. -/
theorem failureFunc_isolation (fh : String → String → Option GoError)
    (entity event : String) :
    ((failureFunc fh entity event).head? =
      some (.handleFailure entity event)) ∧
    (fh entity event = none →
      failureFunc fh entity event = [.handleFailure entity event]) ∧
    (∀ e, fh entity event = some e →
      failureFunc fh entity event =
        [.handleFailure entity event, .handleError e]) := by
  refine ⟨?_, ?_, ?_⟩
  · cases h : fh entity event <;> simp [failureFunc, h]
  · intro h
    simp [failureFunc, h]
  · intro e h
    simp [failureFunc, h]

/-- Witness for C5: a handler failing with a concrete error yields exactly
one error-handler invocation carrying that error; a succeeding handler
yields none. -/
theorem failureFunc_isolation_witness :
    failureFunc (fun _ _ => some (.rpcErr "handler failed")) "e" "ev" =
      [.handleFailure "e" "ev", .handleError (.rpcErr "handler failed")] ∧
    failureFunc (fun _ _ => none) "e" "ev" = [.handleFailure "e" "ev"] :=
  ⟨(failureFunc_isolation (fun _ _ => some (.rpcErr "handler failed"))
      "e" "ev").2.2 (.rpcErr "handler failed") rfl,
   (failureFunc_isolation (fun _ _ => none) "e" "ev").2.1 rfl⟩

/-- Claim C6 (amended): the watch subscription `RefreshMonitor` starts is
bound to the very context of the triggering call — not a longer-lived
token — and a watch channel that closes before any terminal event (its
context canceled while the task is Active) ends the task without invoking
either callback. -/
theorem refreshMonitor_watch_ctx (cl : ClientModel) (ctx : Nat)
    (name entity event : String) (ttl : Int) :
    (∀ c k e v,
      StoreOp.watch c k e v ∈ (RefreshMonitor cl ctx name entity event ttl).2 →
      c = ctx ∧ k = monitorKeyBuilderBuild name ∧ e = entity ∧ v = event) ∧
    (∀ (α : Type) (fcb scb : α) (rs : List WatchResponse),
      (∀ w ∈ rs, w.events = []) → watchMon fcb scb rs = []) := by
  constructor
  · intro c k e v hmem
    obtain h | ⟨l', h⟩ | h | ⟨l', h⟩ | ⟨l', h⟩ :=
      refreshMonitor_trace_cases cl ctx name entity event ttl <;>
      rw [h] at hmem <;> simp at hmem
    exact hmem
  · intro α fcb scb rs hrs
    induction rs with
    | nil => rfl
    | cons w rest ih =>
      have hw : w.events = [] := hrs w (by simp)
      have hr : ∀ w' ∈ rest, w'.events = [] := fun w' hw' => hrs w' (by simp [hw'])
      simpa [watchMon, hw, scanEvents] using ih hr

/-- Witness for C6 (amended): at a concrete call the started watch carries
the call's context id, and a channel closing with no terminal event fires
no callback. -/
theorem refreshMonitor_watch_ctx_witness :
    (7 = 7 ∧ "monitors/entity1" = monitorKeyBuilderBuild "entity1" ∧
     "e" = "e" ∧ "ev" = "ev") ∧
    watchMon true false [{ events := [] }, { events := [] }] = [] := by
  constructor
  · exact (refreshMonitor_watch_ctx clOk 7 "entity1" "e" "ev" 30).1
      7 "monitors/entity1" "e" "ev" (by decide)
  · exact (refreshMonitor_watch_ctx clOk 7 "entity1" "e" "ev" 30).2
      Bool true false [{ events := [] }, { events := [] }] (by simp)

/-- Counterexample to C6 as stated: at a concrete call under context id 7,
the watch subscription the call starts carries context 7 itself — the same
token whose deadline governs the call's store RPCs — so no watch of this
call is bound to a longer-lived (distinct) token. -/
theorem refreshMonitor_watch_ctx_counterexample :
    (RefreshMonitor clOk 7 "entity1" "e" "ev" 30).2 =
      [.get 7 "monitors/entity1", .grant 7 30,
       .put 7 "monitors/entity1" "30" 5,
       .watch 7 "monitors/entity1" "e" "ev"] ∧
    ¬ ∃ c k e v,
        StoreOp.watch c k e v ∈ (RefreshMonitor clOk 7 "entity1" "e" "ev" 30).2 ∧
        c ≠ 7 := by
  have htr : (RefreshMonitor clOk 7 "entity1" "e" "ev" 30).2 =
      [.get 7 "monitors/entity1", .grant 7 30,
       .put 7 "monitors/entity1" "30" 5,
       .watch 7 "monitors/entity1" "e" "ev"] := by decide
  refine ⟨htr, ?_⟩
  rintro ⟨c, k, e, v, hmem, hne⟩
  rw [htr] at hmem
  simp at hmem
  exact hne hmem.1

/-- Claim C7: the store key is the fixed namespace, the separator and the
name — deterministic concatenation with no other state — and on an empty
store `RefreshMonitor(ctx, "entity1", e, ev, 30)` creates the key
`monitors/entity1` with value `"30"`.  The key builder itself is modelled
from the spec, its source lying outside the verified tree. -/
theorem refreshMonitor_key_naming (cl : ClientModel) (ctx : Nat)
    (name entity event : String) (lid : Int)
    (hget : cl.getResp = .ok []) (hgrant : cl.grantResp = .ok lid)
    (hput : cl.putResp = .ok ()) :
    monitorKeyBuilderBuild name = monitorPathRoot ++ "/" ++ name ∧
    RefreshMonitor cl ctx "entity1" entity event 30 =
      (.ok (), [.get ctx "monitors/entity1", .grant ctx 30,
                .put ctx "monitors/entity1" "30" lid,
                .watch ctx "monitors/entity1" entity event]) := by
  constructor
  · rfl
  · rw [refreshMonitor_create_eq cl ctx "entity1" entity event 30
      (Or.inl (by simp [getMonitor, hget]))]
    have h30 : go_formatInt 30 = "30" := by decide
    have hke : monitorKeyBuilderBuild "entity1" = "monitors/entity1" := by decide
    simp [refreshCreate, hgrant, hput, h30, hke]

/-- Witness for C7: the scenario evaluated on a concrete empty-store
client. -/
theorem refreshMonitor_key_naming_witness :
    monitorKeyBuilderBuild "entity1" = monitorPathRoot ++ "/" ++ "entity1" ∧
    RefreshMonitor clOk 2 "entity1" "e" "ev" 30 =
      (.ok (), [.get 2 "monitors/entity1", .grant 2 30,
                .put 2 "monitors/entity1" "30" 5,
                .watch 2 "monitors/entity1" "e" "ev"]) :=
  refreshMonitor_key_naming clOk 2 "entity1" "e" "ev" 5 rfl rfl rfl

/-- Claim C8: the ttl encoding round-trips: for every int64 ttl the value
written is its decimal string, and a later read of that value reconstructs
a monitor record whose ttl field equals the written ttl. -/
theorem monitor_ttl_roundtrip (ttl : Int) (h1 : -(2 ^ 63) ≤ ttl)
    (h2 : ttl < 2 ^ 63) (cl : ClientModel) (ctx : Nat) (key sk : String)
    (lid : Int)
    (hget : cl.getResp =
      .ok [{ key := sk, value := go_formatInt ttl, lease := lid }]) :
    go_parseInt64 (go_formatInt ttl) = some ttl ∧
    getMonitor cl ctx key =
      (.ok (some { key := sk, leaseID := lid, ttl := ttl }),
       [.get ctx key]) := by
  have hr := go_parse_go_format ttl h1 h2
  exact ⟨hr, by simp [getMonitor, hget, hr]⟩

/-- Witness for C8: the round-trip at ttl 30 on the concrete stored pair
`monitors/entity1 = "30"`. -/
theorem monitor_ttl_roundtrip_witness :
    go_parseInt64 (go_formatInt 30) = some 30 ∧
    getMonitor clHeld 1 "monitors/entity1" =
      (.ok (some { key := "monitors/entity1", leaseID := 9, ttl := 30 }),
       [.get 1 "monitors/entity1"]) :=
  monitor_ttl_roundtrip 30 (by decide) (by decide) clHeld 1
    "monitors/entity1" "monitors/entity1" 9 rfl
